import Mathlib

/-
Shallow embedding of the goaux/ticker Go package (task.go, option.go).

The Go task closure `func() error` is modelled by its observable behaviour
across invocations: a function `Nat → Option GoError` giving the result of
the k-th invocation (counting from 0; `none` = the Go `nil` error).
A Go `Task` value, which may be the nil function, is `Option` of that.

The `select` between the ticker channel and `ctx.Done()` is resolved by an
external schedule `Nat → SelectOutcome`: the j-th select executed inside the
loop either receives a tick or observes the context done with a reason
(explicit cancel vs deadline).  The unbounded loop `run` is given fuel; a
`none` result means it had not terminated within the fuel.
-/

namespace ticker

/-- Identity tags for the three `errors.New` / `fmt.Errorf` values created by
the package (Go error identity is per created value; the package creates
exactly these). -/
inductive ErrMsg where
  | invalidArgument
  | nonPositiveInterval
  | nilFunction
deriving DecidableEq

/-- Go error values as observed through this package: the base errors made by
`errors.New`, wrapped errors made by `fmt.Errorf` with a wrap verb, the two
context errors, and opaque task-originated errors (identified by a tag). -/
inductive GoError where
  | errNew (msg : ErrMsg)
  | wrapf (msg : ErrMsg) (inner : GoError)
  | ctxCanceled
  | ctxDeadlineExceeded
  | taskError (id : Nat)
deriving DecidableEq

/-- `errors.Is(err, target)`: identity match, else unwrap the wrap chain. -/
def errorsIs : GoError → GoError → Bool
  | .wrapf m inner, target =>
      decide (GoError.wrapf m inner = target) || errorsIs inner target
  | e, target => decide (e = target)

/-- `ErrInvalidArgument = errors.New("invalid argument")`. -/
def ErrInvalidArgument : GoError := .errNew .invalidArgument

/-- `ErrNonPositiveInterval` wraps `ErrInvalidArgument`. -/
def ErrNonPositiveInterval : GoError := .wrapf .nonPositiveInterval ErrInvalidArgument

/-- `ErrNilFunction` wraps `ErrInvalidArgument`. -/
def ErrNilFunction : GoError := .wrapf .nilFunction ErrInvalidArgument

/-- Reason carried by a done context: `ctx.Err()` distinguishes explicit
cancellation from deadline expiry. -/
inductive CancelReason where
  | canceled
  | deadlineExceeded
deriving DecidableEq

/-- `ctx.Err()` of a done context. -/
def ctxErr : CancelReason → GoError
  | .canceled => .ctxCanceled
  | .deadlineExceeded => .ctxDeadlineExceeded

/-- Outcome of one `select` between `<-t.C` and `<-ctx.Done()`. -/
inductive SelectOutcome where
  | tick
  | done (r : CancelReason)
deriving DecidableEq

/-- Behaviour of the Go task closure: result of the k-th invocation. -/
abbrev TaskFn := Nat → Option GoError

/-- `type Task func() error` — a function value that may be nil. -/
abbrev Task := Option TaskFn

/-- `func New(task func() error) Task { return Task(task) }` — a plain
conversion: nil in, nil out. -/
def New (task : Option TaskFn) : Task := task

/-- `type config struct { Immediate bool; Limit int }`. -/
structure config where
  Immediate : Bool
  Limit : Int
deriving DecidableEq

/-- The two Option implementations (`immediate bool`, `limit int`). -/
inductive Opt where
  | immediate (v : Bool)
  | limit (v : Int)
deriving DecidableEq

/-- The `apply` methods of the two option types. -/
def Opt.apply : Opt → config → config
  | .immediate v, c => { c with Immediate := v }
  | .limit v, c => { c with Limit := v }

/-- `func WithImmediate(v bool) Option { return immediate(v) }`. -/
def WithImmediate (v : Bool) : Opt := .immediate v

/-- `func WithLimit(v int) Option { return limit(v) }`. -/
def WithLimit (v : Int) : Opt := .limit v

/-- The option fold in `Run`: `c := &config{Limit: -1}; for _, opt := range
options { opt.apply(c) }`. -/
def foldConfig (options : List Opt) : config :=
  options.foldl (fun c o => o.apply c) { Immediate := false, Limit := -1 }

/-- Observable outcome of one `Run` call: the returned error (`none` = nil),
how many task invocations happened, whether `time.NewTicker` was reached,
and how many selects (wait points) were executed. -/
structure RunResult where
  err : Option GoError
  invocations : Nat
  tickerCreated : Bool
  selects : Nat
deriving DecidableEq

/-- The `for ; limit > 0; limit--` loop of `runLimit`, entered after the
ticker is created.  `base` is the number of invocations already performed
(1 when the immediate phase ran), `fuel` the remaining limit as a Nat,
`j` the number of selects executed so far. -/
def runLimitLoop (op : TaskFn) (sched : Nat → SelectOutcome) (base : Nat) :
    Nat → Nat → RunResult
  | 0, j => ⟨none, base + j, true, j⟩
  | fuel+1, j =>
    match sched j with
    | .done r => ⟨some (ctxErr r), base + j, true, j+1⟩
    | .tick =>
      match op (base + j) with
      | some e => ⟨some e, base + j + 1, true, j+1⟩
      | none => runLimitLoop op sched base fuel (j+1)

/-- `func (task Task) runLimit(ctx, d, c)`: optional immediate invocation
(counting against the limit, with early nil return when the limit is
exhausted), then the ticker loop. -/
def runLimit (op : TaskFn) (sched : Nat → SelectOutcome) (c : config) : RunResult :=
  if c.Immediate then
    match op 0 with
    | some e => ⟨some e, 1, false, 0⟩
    | none =>
      if c.Limit - 1 = 0 then ⟨none, 1, false, 0⟩
      else runLimitLoop op sched 1 (c.Limit - 1).toNat 0
  else runLimitLoop op sched 0 c.Limit.toNat 0

/-- The endless `for { select ... } }` loop of `run`, with fuel; `none`
means the loop was still going when the fuel ran out. -/
def runLoop (op : TaskFn) (sched : Nat → SelectOutcome) (base : Nat) :
    Nat → Nat → Option RunResult
  | 0, _ => none
  | fuel+1, j =>
    match sched j with
    | .done r => some ⟨some (ctxErr r), base + j, true, j+1⟩
    | .tick =>
      match op (base + j) with
      | some e => some ⟨some e, base + j + 1, true, j+1⟩
      | none => runLoop op sched base fuel (j+1)

/-- `func (task Task) run(ctx, d, c)`: optional immediate invocation, then
the endless ticker loop. -/
def run (op : TaskFn) (sched : Nat → SelectOutcome) (c : config) (fuel : Nat) :
    Option RunResult :=
  if c.Immediate then
    match op 0 with
    | some e => some ⟨some e, 1, false, 0⟩
    | none => runLoop op sched 1 fuel 0
  else runLoop op sched 0 fuel 0

/-- `func (task Task) Run(ctx, d, options...)`: validate the interval, then
the task, fold the options, and dispatch on the sign of the limit. -/
def Run (task : Task) (sched : Nat → SelectOutcome) (d : Int)
    (options : List Opt) (fuel : Nat) : Option RunResult :=
  if d ≤ 0 then some ⟨some ErrNonPositiveInterval, 0, false, 0⟩
  else
    match task with
    | none => some ⟨some ErrNilFunction, 0, false, 0⟩
    | some op =>
      let c := foldConfig options
      if c.Limit = 0 then some ⟨none, 0, false, 0⟩
      else if 0 < c.Limit then some (runLimit op sched c)
      else run op sched c fuel

/-! Helper lemmas about the two loops and the option fold. -/

theorem runLimitLoop_ok (op : TaskFn) (sched : Nat → SelectOutcome) (base : Nat)
    (hop : ∀ k, op k = none) :
    ∀ fuel j, (∀ i, i < j + fuel → sched i = SelectOutcome.tick) →
      runLimitLoop op sched base fuel j = ⟨none, base + (j + fuel), true, j + fuel⟩ := by
  intro fuel
  induction fuel with
  | zero => intro j _; simp [runLimitLoop]
  | succ fuel ih =>
    intro j hs
    have h1 : sched j = SelectOutcome.tick := hs j (by omega)
    have h2 := ih (j + 1) (fun i hi => hs i (by omega))
    simp only [runLimitLoop, h1, hop (base + j), h2, RunResult.mk.injEq]
    refine ⟨trivial, by omega, trivial, by omega⟩

theorem runLimitLoop_err (op : TaskFn) (sched : Nat → SelectOutcome) (base : Nat)
    (i : Nat) (e : GoError)
    (hs : ∀ j, sched j = SelectOutcome.tick)
    (hop : ∀ j, j < i → op j = none) (he : op i = some e) :
    ∀ fuel j, base + j ≤ i → i < base + j + fuel →
      runLimitLoop op sched base fuel j = ⟨some e, i + 1, true, i + 1 - base⟩ := by
  intro fuel
  induction fuel with
  | zero => intro j h1 h2; omega
  | succ fuel ih =>
    intro j h1 h2
    simp only [runLimitLoop, hs j]
    rcases Nat.lt_or_ge (base + j) i with hij | hij
    · have h3 : op (base + j) = none := hop _ hij
      have h4 := ih (j + 1) (by omega) (by omega)
      simp only [h3, h4]
    · have hij' : base + j = i := by omega
      simp only [hij', he, RunResult.mk.injEq]
      refine ⟨trivial, trivial, trivial, by omega⟩

theorem runLimitLoop_done (op : TaskFn) (sched : Nat → SelectOutcome) (base : Nat)
    (m : Nat) (r : CancelReason)
    (hs : ∀ j, j < m → sched j = SelectOutcome.tick)
    (hm : sched m = SelectOutcome.done r)
    (hop : ∀ j, j < base + m → op j = none) :
    ∀ fuel j, j ≤ m → m < j + fuel →
      runLimitLoop op sched base fuel j = ⟨some (ctxErr r), base + m, true, m + 1⟩ := by
  intro fuel
  induction fuel with
  | zero => intro j h1 h2; omega
  | succ fuel ih =>
    intro j h1 h2
    rcases Nat.lt_or_ge j m with hjm | hjm
    · have h3 : op (base + j) = none := hop _ (by omega)
      have h4 := ih (j + 1) (by omega) (by omega)
      simp only [runLimitLoop, hs j hjm, h3, h4]
    · have hjm' : j = m := by omega
      subst hjm'
      simp only [runLimitLoop, hm]

theorem runLoop_err (op : TaskFn) (sched : Nat → SelectOutcome) (base : Nat)
    (i : Nat) (e : GoError)
    (hs : ∀ j, sched j = SelectOutcome.tick)
    (hop : ∀ j, j < i → op j = none) (he : op i = some e) :
    ∀ fuel j, base + j ≤ i → i < base + j + fuel →
      runLoop op sched base fuel j = some ⟨some e, i + 1, true, i + 1 - base⟩ := by
  intro fuel
  induction fuel with
  | zero => intro j h1 h2; omega
  | succ fuel ih =>
    intro j h1 h2
    simp only [runLoop, hs j]
    rcases Nat.lt_or_ge (base + j) i with hij | hij
    · have h3 : op (base + j) = none := hop _ hij
      have h4 := ih (j + 1) (by omega) (by omega)
      simp only [h3, h4]
    · have hij' : base + j = i := by omega
      simp only [hij', he, Option.some.injEq, RunResult.mk.injEq]
      refine ⟨trivial, trivial, trivial, by omega⟩

theorem runLoop_done (op : TaskFn) (sched : Nat → SelectOutcome) (base : Nat)
    (m : Nat) (r : CancelReason)
    (hs : ∀ j, j < m → sched j = SelectOutcome.tick)
    (hm : sched m = SelectOutcome.done r)
    (hop : ∀ j, j < base + m → op j = none) :
    ∀ fuel j, j ≤ m → m < j + fuel →
      runLoop op sched base fuel j = some ⟨some (ctxErr r), base + m, true, m + 1⟩ := by
  intro fuel
  induction fuel with
  | zero => intro j h1 h2; omega
  | succ fuel ih =>
    intro j h1 h2
    rcases Nat.lt_or_ge j m with hjm | hjm
    · have h3 : op (base + j) = none := hop _ (by omega)
      have h4 := ih (j + 1) (by omega) (by omega)
      simp only [runLoop, hs j hjm, h3, h4]
    · have hjm' : j = m := by omega
      subst hjm'
      simp only [runLoop, hm]

theorem runLoop_no_success (op : TaskFn) (sched : Nat → SelectOutcome) (base : Nat) :
    ∀ fuel j res, runLoop op sched base fuel j = some res → res.err ≠ none := by
  intro fuel
  induction fuel with
  | zero => intro j res h; simp [runLoop] at h
  | succ fuel ih =>
    intro j res h
    rw [runLoop] at h
    cases hsj : sched j with
    | done r =>
      rw [hsj] at h
      cases h
      simp
    | tick =>
      rw [hsj] at h
      cases hop : op (base + j) with
      | some e =>
        rw [hop] at h
        cases h
        simp
      | none =>
        rw [hop] at h
        exact ih (j + 1) res h

theorem run_congr_immediate (op : TaskFn) (sched : Nat → SelectOutcome)
    (c c' : config) (fuel : Nat) (h : c.Immediate = c'.Immediate) :
    run op sched c fuel = run op sched c' fuel := by
  simp only [run, h]

theorem foldConfig_append (xs ys : List Opt) :
    foldConfig (xs ++ ys) = ys.foldl (fun c o => o.apply c) (foldConfig xs) := by
  simp [foldConfig, List.foldl_append]

theorem Run_limit_pos (op : TaskFn) (sched : Nat → SelectOutcome) (d : Int)
    (hd : 0 < d) (options : List Opt) (fuel : Nat)
    (h : 0 < (foldConfig options).Limit) :
    Run (some op) sched d options fuel
      = some (runLimit op sched (foldConfig options)) := by
  simp [Run, show ¬ d ≤ 0 by omega, show ¬ (foldConfig options).Limit = 0 by omega, h]

theorem Run_limit_neg (op : TaskFn) (sched : Nat → SelectOutcome) (d : Int)
    (hd : 0 < d) (options : List Opt) (fuel : Nat)
    (h : (foldConfig options).Limit < 0) :
    Run (some op) sched d options fuel = run op sched (foldConfig options) fuel := by
  simp [Run, show ¬ d ≤ 0 by omega, show ¬ (foldConfig options).Limit = 0 by omega,
    show ¬ 0 < (foldConfig options).Limit by omega]

/-! The claims. -/

/-- C1: with `WithLimit n` for n > 0 and a task that always succeeds, `Run`
performs exactly n invocations in total (the immediate one counting when
`WithImmediate true` is set) and returns nil; the schedule — the
cancellation signal's state — is only constrained at the wait points before
the n-th invocation completes, so the outcome is independent of the
signal's state from then on. -/
theorem c1_limit_exact_invocations (n : Int) (hn : 0 < n) (op : TaskFn)
    (hop : ∀ k, op k = none) (sched : Nat → SelectOutcome)
    (hs : ∀ i, i < n.toNat → sched i = SelectOutcome.tick)
    (imm : Bool) (d : Int) (hd : 0 < d) (fuel : Nat) :
    (Run (some op) sched d [WithLimit n, WithImmediate imm] fuel).map
      (fun res => (res.err, res.invocations)) = some (none, n.toNat) := by
  have hfc : foldConfig [WithLimit n, WithImmediate imm] = ⟨imm, n⟩ := rfl
  rw [Run_limit_pos op sched d hd _ fuel (by rw [hfc]; exact hn), hfc]
  cases imm with
  | false =>
    rw [show runLimit op sched ⟨false, n⟩
        = runLimitLoop op sched 0 n.toNat 0 from rfl]
    rw [runLimitLoop_ok op sched 0 hop n.toNat 0 (fun i hi => hs i (by omega))]
    simp
  | true =>
    have h0 : op 0 = none := hop 0
    rw [show runLimit op sched ⟨true, n⟩
        = if n - 1 = 0 then ⟨none, 1, false, 0⟩
          else runLimitLoop op sched 1 (n - 1).toNat 0 from by
      simp [runLimit, h0]]
    by_cases h1 : n - 1 = 0
    · rw [if_pos h1]
      simp
      omega
    · rw [if_neg h1]
      rw [runLimitLoop_ok op sched 1 hop (n - 1).toNat 0
        (fun i hi => hs i (by omega))]
      simp
      omega

theorem c1_limit_exact_invocations_witness :
    (Run (some fun _ => none) (fun _ => SelectOutcome.tick) 1
        [WithLimit 2, WithImmediate true] 0).map
      (fun res => (res.err, res.invocations)) = some (none, (2 : Int).toNat) :=
  c1_limit_exact_invocations 2 (by decide) (fun _ => none) (fun _ => rfl)
    (fun _ => SelectOutcome.tick) (fun i _ => rfl) true 1 (by decide) 0

/-- C3: if the task errs on its (i+1)-th invocation (index i, counting from
0) having succeeded before, `Run` returns exactly that error with exactly
i+1 invocations — no invocation i+2 — in the bounded variant, in the
unbounded variant, and (taking i = 0 with `imm = true`) when the error
arises from the immediate invocation. -/
theorem c3_task_error_propagated (op : TaskFn) (sched : Nat → SelectOutcome)
    (i : Nat) (e : GoError)
    (hop : ∀ j, j < i → op j = none) (he : op i = some e)
    (hs : ∀ j, sched j = SelectOutcome.tick)
    (d : Int) (hd : 0 < d) (n : Int) (hn : (i : Int) < n)
    (imm : Bool) (fuel : Nat) (hf : i < fuel) :
    (Run (some op) sched d [WithLimit n, WithImmediate imm] fuel).map
      (fun res => (res.err, res.invocations)) = some (some e, i + 1) ∧
    (Run (some op) sched d [WithImmediate imm] fuel).map
      (fun res => (res.err, res.invocations)) = some (some e, i + 1) := by
  have hn0 : 0 < n := by omega
  have hfc1 : foldConfig [WithLimit n, WithImmediate imm] = ⟨imm, n⟩ := rfl
  have hfc2 : foldConfig [WithImmediate imm] = ⟨imm, -1⟩ := rfl
  constructor
  · rw [Run_limit_pos op sched d hd _ fuel (by rw [hfc1]; exact hn0), hfc1]
    cases imm with
    | false =>
      rw [show runLimit op sched ⟨false, n⟩
          = runLimitLoop op sched 0 n.toNat 0 from rfl]
      rw [runLimitLoop_err op sched 0 i e hs hop he n.toNat 0 (by omega) (by omega)]
      simp
    | true =>
      rcases Nat.eq_zero_or_pos i with hi0 | hi0
      · subst hi0
        rw [show runLimit op sched ⟨true, n⟩ = ⟨some e, 1, false, 0⟩ from by
          simp [runLimit, he]]
        simp
      · have h0 : op 0 = none := hop 0 hi0
        have h1 : ¬ (n - 1 = 0) := by omega
        rw [show runLimit op sched ⟨true, n⟩
            = runLimitLoop op sched 1 (n - 1).toNat 0 from by
          simp [runLimit, h0, h1]]
        rw [runLimitLoop_err op sched 1 i e hs hop he (n - 1).toNat 0
          (by omega) (by omega)]
        simp
  · rw [Run_limit_neg op sched d hd _ fuel
        (by rw [hfc2]; show (-1 : Int) < 0; omega), hfc2]
    cases imm with
    | false =>
      rw [show run op sched ⟨false, -1⟩ fuel = runLoop op sched 0 fuel 0 from rfl]
      rw [runLoop_err op sched 0 i e hs hop he fuel 0 (by omega) (by omega)]
      simp
    | true =>
      rcases Nat.eq_zero_or_pos i with hi0 | hi0
      · subst hi0
        rw [show run op sched ⟨true, -1⟩ fuel = some ⟨some e, 1, false, 0⟩ from by
          simp [run, he]]
        simp
      · have h0 : op 0 = none := hop 0 hi0
        rw [show run op sched ⟨true, -1⟩ fuel = runLoop op sched 1 fuel 0 from by
          simp [run, h0]]
        rw [runLoop_err op sched 1 i e hs hop he fuel 0 (by omega) (by omega)]
        simp

theorem c3_task_error_propagated_witness :
    (Run (some fun k => if k = 1 then some (GoError.taskError 7) else none)
        (fun _ => SelectOutcome.tick) 1 [WithLimit 3, WithImmediate false] 5).map
      (fun res => (res.err, res.invocations)) = some (some (GoError.taskError 7), 2) ∧
    (Run (some fun k => if k = 1 then some (GoError.taskError 7) else none)
        (fun _ => SelectOutcome.tick) 1 [WithImmediate false] 5).map
      (fun res => (res.err, res.invocations)) = some (some (GoError.taskError 7), 2) :=
  c3_task_error_propagated (fun k => if k = 1 then some (GoError.taskError 7) else none)
    (fun _ => SelectOutcome.tick) 1 (GoError.taskError 7)
    (fun j hj => by simp [show j = 0 from by omega]) rfl (fun _ => rfl)
    1 (by decide) 3 (by decide) false 5 (by decide)

/-- C4: if the cancellation signal is what the wait point observes (all
earlier wait points saw ticks, every earlier invocation succeeded), `Run`
stops with no further invocations, returns the signal's own reason through
`ctx.Err()` — explicit cancel and deadline expiry stay distinguishable —
and the invocations already completed before cancellation still count, in
the bounded and the unbounded variant alike. -/
theorem c4_cancellation_between_invocations (op : TaskFn)
    (sched : Nat → SelectOutcome) (m : Nat) (r : CancelReason) (imm : Bool)
    (hs : ∀ j, j < m → sched j = SelectOutcome.tick)
    (hm : sched m = SelectOutcome.done r)
    (hop : ∀ j, j < (if imm then 1 else 0) + m → op j = none)
    (d : Int) (hd : 0 < d) (n : Int)
    (hn : ((if imm then 1 else 0) + m : Int) < n)
    (fuel : Nat) (hf : m < fuel) :
    ((Run (some op) sched d [WithLimit n, WithImmediate imm] fuel).map
        (fun res => (res.err, res.invocations))
      = some (some (ctxErr r), (if imm then 1 else 0) + m)) ∧
    ((Run (some op) sched d [WithImmediate imm] fuel).map
        (fun res => (res.err, res.invocations))
      = some (some (ctxErr r), (if imm then 1 else 0) + m)) ∧
    ctxErr CancelReason.canceled ≠ ctxErr CancelReason.deadlineExceeded := by
  have hfc1 : foldConfig [WithLimit n, WithImmediate imm] = ⟨imm, n⟩ := rfl
  have hfc2 : foldConfig [WithImmediate imm] = ⟨imm, -1⟩ := rfl
  refine ⟨?_, ?_, by decide⟩
  · cases imm with
    | false =>
      have hop' : ∀ j, j < 0 + m → op j = none := hop
      have hn' : (0 : Int) + (m : Int) < n := hn
      have hn0 : 0 < n := by omega
      rw [Run_limit_pos op sched d hd _ fuel (by rw [hfc1]; exact hn0), hfc1]
      rw [show runLimit op sched ⟨false, n⟩
          = runLimitLoop op sched 0 n.toNat 0 from rfl]
      rw [runLimitLoop_done op sched 0 m r hs hm hop' n.toNat 0
        (by omega) (by omega)]
      simp
    | true =>
      have hop' : ∀ j, j < 1 + m → op j = none := hop
      have hn' : (1 : Int) + (m : Int) < n := hn
      have hn0 : 0 < n := by omega
      have h0 : op 0 = none := hop' 0 (by omega)
      have h1 : ¬ (n - 1 = 0) := by omega
      rw [Run_limit_pos op sched d hd _ fuel (by rw [hfc1]; exact hn0), hfc1]
      rw [show runLimit op sched ⟨true, n⟩
          = runLimitLoop op sched 1 (n - 1).toNat 0 from by
        simp [runLimit, h0, h1]]
      rw [runLimitLoop_done op sched 1 m r hs hm hop' (n - 1).toNat 0
        (by omega) (by omega)]
      simp
  · cases imm with
    | false =>
      have hop' : ∀ j, j < 0 + m → op j = none := hop
      rw [Run_limit_neg op sched d hd _ fuel
        (by rw [hfc2]; show (-1 : Int) < 0; omega), hfc2]
      rw [show run op sched ⟨false, -1⟩ fuel = runLoop op sched 0 fuel 0 from rfl]
      rw [runLoop_done op sched 0 m r hs hm hop' fuel 0 (by omega) (by omega)]
      simp
    | true =>
      have hop' : ∀ j, j < 1 + m → op j = none := hop
      have h0 : op 0 = none := hop' 0 (by omega)
      rw [Run_limit_neg op sched d hd _ fuel
        (by rw [hfc2]; show (-1 : Int) < 0; omega), hfc2]
      rw [show run op sched ⟨true, -1⟩ fuel = runLoop op sched 1 fuel 0 from by
        simp [run, h0]]
      rw [runLoop_done op sched 1 m r hs hm hop' fuel 0 (by omega) (by omega)]
      simp

theorem c4_cancellation_between_invocations_witness :
    ((Run (some fun _ => none)
        (fun j => if j = 1 then SelectOutcome.done CancelReason.canceled
                  else SelectOutcome.tick) 1
        [WithLimit 4, WithImmediate false] 8).map
        (fun res => (res.err, res.invocations))
      = some (some (ctxErr CancelReason.canceled), 1)) ∧
    ((Run (some fun _ => none)
        (fun j => if j = 1 then SelectOutcome.done CancelReason.canceled
                  else SelectOutcome.tick) 1
        [WithImmediate false] 8).map
        (fun res => (res.err, res.invocations))
      = some (some (ctxErr CancelReason.canceled), 1)) ∧
    ctxErr CancelReason.canceled ≠ ctxErr CancelReason.deadlineExceeded :=
  c4_cancellation_between_invocations (fun _ => none)
    (fun j => if j = 1 then SelectOutcome.done CancelReason.canceled
              else SelectOutcome.tick) 1 CancelReason.canceled false
    (fun j hj => by simp [show j = 0 from by omega]) rfl
    (fun _ _ => rfl) 1 (by decide) 4 (by decide) 8 (by decide)

/-- C6: with `WithImmediate true` and a nonzero limit the task is invoked
once before any ticker or wait: a failing immediate invocation returns its
error at once — no ticker, no wait, no further invocation — whether the
limit is bounded or negative (unbounded); with limit 1 a successful
immediate invocation exhausts the limit and `Run` returns nil without the
ticker ever being created; with limit n > 1 the run continues as the ticker
loop with the invocation already counted: n - 1 iterations remain and loop
invocations start at index 1. -/
theorem c6_immediate_phase (op : TaskFn) (sched : Nat → SelectOutcome)
    (d : Int) (hd : 0 < d) (n : Int) (fuel : Nat) :
    (∀ e, op 0 = some e → n ≠ 0 →
      Run (some op) sched d [WithLimit n, WithImmediate true] fuel
        = some ⟨some e, 1, false, 0⟩) ∧
    (op 0 = none → n = 1 →
      Run (some op) sched d [WithLimit n, WithImmediate true] fuel
        = some ⟨none, 1, false, 0⟩) ∧
    (op 0 = none → 1 < n →
      Run (some op) sched d [WithLimit n, WithImmediate true] fuel
        = some (runLimitLoop op sched 1 (n - 1).toNat 0)) := by
  have hfc : foldConfig [WithLimit n, WithImmediate true] = ⟨true, n⟩ := rfl
  refine ⟨fun e he hn0 => ?_, fun h0 hn1 => ?_, fun h0 hn1 => ?_⟩
  · rcases lt_trichotomy n 0 with hlt | heq | hgt
    · rw [Run_limit_neg op sched d hd _ fuel (by rw [hfc]; exact hlt), hfc]
      simp [run, he]
    · exact absurd heq hn0
    · rw [Run_limit_pos op sched d hd _ fuel (by rw [hfc]; exact hgt), hfc]
      simp [runLimit, he]
  · subst hn1
    rw [Run_limit_pos op sched d hd _ fuel (by rw [hfc]; decide), hfc]
    simp [runLimit, h0]
  · rw [Run_limit_pos op sched d hd _ fuel
        (by rw [hfc]; show (0 : Int) < n; omega), hfc]
    simp [runLimit, h0, show ¬ (n - 1 = 0) by omega]

theorem c6_immediate_phase_witness :
    Run (some fun _ => some (GoError.taskError 5)) (fun _ => SelectOutcome.tick) 1
        [WithLimit (-2), WithImmediate true] 6
      = some ⟨some (GoError.taskError 5), 1, false, 0⟩ :=
  (c6_immediate_phase (fun _ => some (GoError.taskError 5))
    (fun _ => SelectOutcome.tick) 1 (by decide) (-2) 6).1
    (GoError.taskError 5) rfl (by decide)

/-- C2: for every interval d ≤ 0, every Task (nil included) and every option
list, `Run` returns `ErrNonPositiveInterval` with no invocation, no ticker
and no wait, independent of the options; for every nil Task with d > 0 it
returns `ErrNilFunction` the same way.  The first conjunct holds for
`task = none` too, so the interval check takes precedence over the
nil-Task check. -/
theorem c2_validation_order (d : Int) (task : Task) (sched : Nat → SelectOutcome)
    (options : List Opt) (fuel : Nat) :
    (d ≤ 0 → Run task sched d options fuel
        = some ⟨some ErrNonPositiveInterval, 0, false, 0⟩) ∧
    (0 < d → Run none sched d options fuel
        = some ⟨some ErrNilFunction, 0, false, 0⟩) := by
  constructor
  · intro h
    simp [Run, h]
  · intro h
    simp [Run, show ¬ d ≤ 0 by omega]

theorem c2_validation_order_witness :
    Run (some fun _ => none) (fun _ => SelectOutcome.tick) (-3)
        [WithImmediate true, WithLimit 4] 5
      = some ⟨some ErrNonPositiveInterval, 0, false, 0⟩ ∧
    Run none (fun _ => SelectOutcome.tick) 2 [WithImmediate true] 5
      = some ⟨some ErrNilFunction, 0, false, 0⟩ :=
  ⟨(c2_validation_order (-3) (some fun _ => none) (fun _ => SelectOutcome.tick)
      [WithImmediate true, WithLimit 4] 5).1 (by decide),
   (c2_validation_order 2 none (fun _ => SelectOutcome.tick)
      [WithImmediate true] 5).2 (by decide)⟩

/-- C5: for every task, interval d > 0 and option list whose folded
configuration has limit 0, `Run` returns nil at once: no invocation, no
ticker, no wait — even when the options also set `WithImmediate true`. -/
theorem c5_limit_zero_no_invocation (op : TaskFn) (sched : Nat → SelectOutcome)
    (d : Int) (options : List Opt) (fuel : Nat) (hd : 0 < d)
    (h0 : (foldConfig options).Limit = 0) :
    Run (some op) sched d options fuel = some ⟨none, 0, false, 0⟩ := by
  simp [Run, show ¬ d ≤ 0 by omega, h0]

theorem c5_limit_zero_no_invocation_witness :
    Run (some fun _ => some (GoError.taskError 3)) (fun _ => SelectOutcome.tick) 1
        [WithImmediate true, WithLimit 0] 4 = some ⟨none, 0, false, 0⟩ :=
  c5_limit_zero_no_invocation (fun _ => some (GoError.taskError 3))
    (fun _ => SelectOutcome.tick) 1 [WithImmediate true, WithLimit 0] 4
    (by decide) rfl

/-- C7: every negative limit selects the same unbounded behaviour: with any
shared prefix of options, `WithLimit v` and `WithLimit w` for v, w < 0 give
identical runs, and `WithLimit v` alone behaves exactly like the default
(no limit option at all). -/
theorem c7_negative_limit_unbounded (v w : Int) (hv : v < 0) (hw : w < 0)
    (task : Task) (sched : Nat → SelectOutcome) (d : Int)
    (opts : List Opt) (fuel : Nat) :
    Run task sched d (opts ++ [WithLimit v]) fuel
        = Run task sched d (opts ++ [WithLimit w]) fuel ∧
    Run task sched d [WithLimit v] fuel = Run task sched d [] fuel := by
  have happ : ∀ u : Int, foldConfig (opts ++ [WithLimit u])
      = { foldConfig opts with Limit := u } := by
    intro u
    rw [foldConfig_append]
    rfl
  constructor
  · rcases le_or_lt d 0 with hd | hd
    · simp [Run, hd]
    · cases task with
      | none => simp [Run, show ¬ d ≤ 0 by omega]
      | some op =>
        rw [Run_limit_neg op sched d hd _ fuel (by rw [happ]; exact hv),
            Run_limit_neg op sched d hd _ fuel (by rw [happ]; exact hw),
            happ, happ]
        exact run_congr_immediate op sched _ _ fuel rfl
  · rcases le_or_lt d 0 with hd | hd
    · simp [Run, hd]
    · cases task with
      | none => simp [Run, show ¬ d ≤ 0 by omega]
      | some op =>
        rw [Run_limit_neg op sched d hd [WithLimit v] fuel hv,
            Run_limit_neg op sched d hd [] fuel (by decide)]
        exact run_congr_immediate op sched _ _ fuel rfl

theorem c7_negative_limit_unbounded_witness :
    (Run (some fun _ => none) (fun _ => SelectOutcome.tick) 1
        ([WithImmediate true] ++ [WithLimit (-5)]) 3
      = Run (some fun _ => none) (fun _ => SelectOutcome.tick) 1
        ([WithImmediate true] ++ [WithLimit (-1)]) 3) ∧
    (Run (some fun _ => none) (fun _ => SelectOutcome.tick) 1 [WithLimit (-5)] 3
      = Run (some fun _ => none) (fun _ => SelectOutcome.tick) 1 [] 3) :=
  c7_negative_limit_unbounded (-5) (-1) (by decide) (by decide)
    (some fun _ => none) (fun _ => SelectOutcome.tick) 1 [WithImmediate true] 3

/-- C8: `New` returns the nil Task exactly when given the nil operation — it
never fails eagerly — and the nil case surfaces only at `Run`, as
`ErrNilFunction`. -/
theorem c8_new_preserves_nil (t : Option TaskFn) (sched : Nat → SelectOutcome)
    (d : Int) (options : List Opt) (fuel : Nat) :
    (New t = none ↔ t = none) ∧
    (0 < d → Run (New none) sched d options fuel
        = some ⟨some ErrNilFunction, 0, false, 0⟩) := by
  refine ⟨Iff.rfl, fun h => ?_⟩
  simp [Run, New, show ¬ d ≤ 0 by omega]

theorem c8_new_preserves_nil_witness :
    (New (some fun _ => none) = none ↔ (some fun _ => none : Option TaskFn) = none) ∧
    (Run (New none) (fun _ => SelectOutcome.tick) 1 [] 2
      = some ⟨some ErrNilFunction, 0, false, 0⟩) :=
  ⟨(c8_new_preserves_nil (some fun _ => none) (fun _ => SelectOutcome.tick) 1 [] 2).1,
   (c8_new_preserves_nil (some fun _ => none) (fun _ => SelectOutcome.tick) 1 [] 2).2
      (by decide)⟩

/-- C9: both validation errors wrap the base `ErrInvalidArgument`, so an
`errors.Is` comparison against the base kind succeeds for them and fails
for the cancellation errors and for every task-originated error. -/
theorem c9_error_taxonomy :
    errorsIs ErrNonPositiveInterval ErrInvalidArgument = true ∧
    errorsIs ErrNilFunction ErrInvalidArgument = true ∧
    errorsIs GoError.ctxCanceled ErrInvalidArgument = false ∧
    errorsIs GoError.ctxDeadlineExceeded ErrInvalidArgument = false ∧
    (∀ k, errorsIs (GoError.taskError k) ErrInvalidArgument = false) :=
  ⟨by decide, by decide, by decide, by decide, fun k => rfl⟩

/-- C10: a nil (success) return from `Run` implies the folded limit was
nonnegative — the unbounded loop can only end with the task's error or the
cancellation reason. -/
theorem c10_nil_return_implies_nonneg_limit (task : Task)
    (sched : Nat → SelectOutcome) (d : Int) (options : List Opt) (fuel : Nat)
    (res : RunResult) (h : Run task sched d options fuel = some res)
    (hok : res.err = none) : 0 ≤ (foldConfig options).Limit := by
  by_contra hneg
  push_neg at hneg
  rcases le_or_lt d 0 with hd | hd
  · rw [show Run task sched d options fuel
        = some ⟨some ErrNonPositiveInterval, 0, false, 0⟩ from by simp [Run, hd]] at h
    cases h
    simp at hok
  · cases task with
    | none =>
      rw [show Run none sched d options fuel
          = some ⟨some ErrNilFunction, 0, false, 0⟩ from by
            simp [Run, show ¬ d ≤ 0 by omega]] at h
      cases h
      simp at hok
    | some op =>
      rw [Run_limit_neg op sched d hd options fuel hneg] at h
      unfold run at h
      by_cases him : (foldConfig options).Immediate
      · rw [if_pos him] at h
        cases hop : op 0 with
        | some e =>
          rw [hop] at h
          cases h
          simp at hok
        | none =>
          rw [hop] at h
          exact runLoop_no_success op sched 1 fuel 0 res h hok
      · rw [if_neg him] at h
        exact runLoop_no_success op sched 0 fuel 0 res h hok

theorem c10_nil_return_implies_nonneg_limit_witness :
    0 ≤ (foldConfig [WithLimit 2]).Limit :=
  c10_nil_return_implies_nonneg_limit (some fun _ => none)
    (fun _ => SelectOutcome.tick) 1 [WithLimit 2] 0 ⟨none, 2, true, 2⟩ rfl rfl

end ticker
